import Mathlib

/-!
Shallow embedding of the HappyLaunderer backend core (order lifecycle,
payments/webhook reconciliation, profile addresses) and of the iOS client
polling coordinator, translated from:
  src/backend/src/controllers/orderController.js
  src/backend/src/controllers/paymentController.js
  src/backend/src/controllers/pricingController.js
  src/unnamed/part_004 (authController: addAddress / removeAddress)
  src/ios-app/HappyLaunderer/Services/OrderManager.swift
The relational store is modelled as explicit lists of rows; each controller
function is a pure function from the database (plus request data) to a
response together with the resulting database.  Early returns (`res.status(...)`)
become error responses paired with the unchanged database.  Timestamps and
`updated_at` triggers are not modelled; ids are opaque naturals.
-/

namespace HappyLaunderer

/-- Order status enum (migration `order_status`). -/
inductive OrderStatus
  | pending
  | picked_up
  | in_laundry
  | ready
  | out_for_delivery
  | completed
  | cancelled
deriving DecidableEq, Repr

/-- Service tier enum (migration `service_type`). -/
inductive ServiceType
  | standard
  | express
  | premium
deriving DecidableEq, Repr

/-- Payment status enum (migration `payment_status`). -/
inductive PaymentStatus
  | pending
  | completed
  | failed
  | refunded
deriving DecidableEq, Repr

/-- Structured postal address (JSONB columns `pickup_address` etc.). -/
structure Address where
  street : String
  city : String
  state : String
  zipCode : String
  latitude : Option Rat
  longitude : Option Rat
deriving DecidableEq, Repr

/-- A labelled saved address (elements of the `saved_addresses` JSONB array). -/
structure SavedAddress where
  label : String
  street : String
  city : String
  state : String
  zipCode : String
deriving DecidableEq, Repr

/-- Driver location JSONB value written by `updateDriverLocation`. -/
structure DriverLocation where
  latitude : Rat
  longitude : Rat
  timestamp : String
deriving DecidableEq, Repr

/-- Row of the `users` table.  `savedAddresses = none` models SQL NULL in the
`saved_addresses` JSONB column (the migration default is `'[]'::jsonb`,
modelled as `some []`). -/
structure UserRec where
  id : Nat
  clerkId : String
  name : Option String
  phone : Option String
  defaultAddress : Option Address
  savedAddresses : Option (List SavedAddress)
deriving DecidableEq, Repr

/-- Row of the `orders` table. -/
structure Order where
  id : Nat
  userId : Nat
  pickupAddress : Address
  deliveryAddress : Address
  scheduledTime : String
  status : OrderStatus
  serviceType : ServiceType
  itemCount : Nat
  price : Rat
  driverId : Option Nat
  driverLocation : Option DriverLocation
  notes : Option String
deriving DecidableEq, Repr

/-- Row of the `order_status_history` table. -/
structure HistoryEntry where
  orderId : Nat
  oldStatus : Option OrderStatus
  newStatus : OrderStatus
  changedBy : Option Nat
  notes : Option String
deriving DecidableEq, Repr

/-- Row of the `payments` table. -/
structure Payment where
  id : Nat
  orderId : Nat
  userId : Nat
  stripePaymentId : Option String
  stripePaymentIntentId : Option String
  amount : Rat
  status : PaymentStatus
  paymentMethodId : Option String
  errorMessage : Option String
deriving DecidableEq, Repr

/-- The relational store.  `nextId` supplies fresh primary keys
(`gen_random_uuid()` in the migration). -/
structure Db where
  users : List UserRec
  orders : List Order
  history : List HistoryEntry
  payments : List Payment
  nextId : Nat
deriving DecidableEq, Repr

/-- An HTTP error response: `res.status(code).json({ error: msg })`. -/
structure ErrResp where
  code : Nat
  msg : String
deriving DecidableEq, Repr

/-- Runs `SELECT id FROM users WHERE clerk_id = $1` (clerk_id is UNIQUE). -/
def findUserByClerkId (db : Db) (cid : String) : Option UserRec :=
  db.users.find? (fun u => u.clerkId == cid)

/-- Runs `SELECT * FROM orders WHERE id = $1`. -/
def findOrder (db : Db) (oid : Nat) : Option Order :=
  db.orders.find? (fun o => o.id == oid)

/-- Runs `SELECT * FROM orders WHERE id = $1 AND user_id = $2`. -/
def findOrderOwned (db : Db) (oid uid : Nat) : Option Order :=
  db.orders.find? (fun o => o.id == oid && o.userId == uid)

/-- All history rows of one order (`WHERE order_id = $1`), in insertion order. -/
def historyFor (db : Db) (oid : Nat) : List HistoryEntry :=
  db.history.filter (fun h => h.orderId == oid)

/-- Runs `UPDATE orders SET ... WHERE id = $1`: rewrite every matching row. -/
def updateOrdersWhere (l : List Order) (oid : Nat) (f : Order → Order) :
    List Order :=
  l.map (fun o => if o.id == oid then f o else o)

/-- Runs `UPDATE users SET ... WHERE clerk_id = $1`: rewrite every matching row. -/
def updateUsersWhere (l : List UserRec) (cid : String) (f : UserRec → UserRec) :
    List UserRec :=
  l.map (fun u => if u.clerkId == cid then f u else u)

/-! ### Stripe webhook handler (`paymentController.stripeWebhook`) -/

/-- The decoded webhook events the handler switches on:
`payment_intent.succeeded`, `payment_intent.payment_failed`, and the
default branch for any other event type. -/
inductive StripeEvent
  | paymentIntentSucceeded (intentId : String)
  | paymentIntentFailed (intentId : String) (errMsg : Option String)
  | other (eventType : String)
deriving DecidableEq, Repr

/-- Webhook responses: `res.status(400).send(...)` on a failed signature,
`res.json({ received: true })` otherwise. -/
inductive WebhookResult
  | badRequest (msg : String)
  | received
deriving DecidableEq, Repr

/-- The handler `stripeWebhook`.  The argument `ver` is the outcome of
`stripe.webhooks.constructEvent(req.body, sig, endpointSecret)`: an error
when the signature does not verify against the configured secret, otherwise
the decoded event.  On `payment_intent.succeeded` the handler runs
`UPDATE payments SET status = 'completed' WHERE stripe_payment_intent_id = $2`;
on `payment_intent.payment_failed` it also stores the error message; any
other event type only logs and acknowledges. -/
def stripeWebhook (db : Db) (ver : Except String StripeEvent) :
    WebhookResult × Db :=
  match ver with
  | .error e => (.badRequest ("Webhook Error: " ++ e), db)
  | .ok ev =>
    match ev with
    | .paymentIntentSucceeded pid =>
        (.received,
          { db with payments := db.payments.map (fun p =>
              if p.stripePaymentIntentId == some pid then
                { p with status := .completed }
              else p) })
    | .paymentIntentFailed pid msg =>
        (.received,
          { db with payments := db.payments.map (fun p =>
              if p.stripePaymentIntentId == some pid then
                { p with status := .failed, errorMessage := msg }
              else p) })
    | .other _ => (.received, db)

/-! ### Driver location update (`orderController.updateDriverLocation`) -/

/-- A JavaScript value as it can arrive in `req.body.latitude` /
`req.body.longitude` after JSON parsing: a finite number, `NaN`, an
infinity, `null`, a string, a boolean, or absent (`undefined`). -/
inductive JsVal
  | num (q : Rat)
  | nan
  | posInf
  | negInf
  | null
  | str (s : String)
  | boolean (b : Bool)
  | undef
deriving DecidableEq, Repr

/-- JavaScript `Number.isFinite`: true exactly on finite numbers, with no coercion. -/
def jsIsFinite : JsVal → Bool
  | .num _ => true
  | _ => false

/-- The handler `updateDriverLocation`.  Coordinates failing `Number.isFinite` are
rejected with a 400 before any database access; otherwise
`UPDATE orders SET driver_location = $1 WHERE id = $2 RETURNING *`, and a
404 if no row matched.  `now` stands for `new Date().toISOString()`. -/
def updateDriverLocation (db : Db) (oid : Nat) (lat lng : JsVal)
    (now : String) : Except ErrResp Order × Db :=
  if jsIsFinite lat && jsIsFinite lng then
    match lat, lng with
    | .num la, .num lo =>
      match findOrder db oid with
      | none => (.error ⟨404, "Order not found"⟩, db)
      | some o =>
        let loc : DriverLocation := ⟨la, lo, now⟩
        let orders' := updateOrdersWhere db.orders oid
          (fun o' => { o' with driverLocation := some loc })
        (.ok { o with driverLocation := some loc }, { db with orders := orders' })
    | _, _ => (.error ⟨400, "Valid latitude and longitude coordinates required"⟩, db)
  else
    (.error ⟨400, "Valid latitude and longitude coordinates required"⟩, db)

/-! ### Pricing (`pricingController.PRICING_TIERS` / `createOrder`'s map) -/

/-- Base price per tier: the `pricingMap` literal in `createOrder`, equal to
the `basePrice` fields of `PRICING_TIERS` (standard 25.00, express 40.00,
premium 60.00). -/
def pricingMap : ServiceType → Rat
  | .standard => 25
  | .express => 40
  | .premium => 60

/-! ### Order creation (`orderController.createOrder`) -/

/-- The request body of `createOrder` after Joi validation has typed the
fields (`serviceType` one of the enum, `itemCount` a non-negative integer
defaulting to 0). -/
structure CreateOrderInput where
  pickupAddress : Address
  deliveryAddress : Address
  scheduledTime : String
  serviceType : ServiceType
  itemCount : Nat
  notes : Option String
deriving DecidableEq, Repr

/-- Joi: `notes: Joi.string().allow('').max(500)`. -/
def notesOk : Option String → Bool
  | none => true
  | some s => s.length ≤ 500

/-- The handler `createOrder`.  Joi-validates, resolves the user by clerk id (404 with an
onboarding message if absent), prices the order from `pricingMap`, inserts
the order row (status takes the migration default `'pending'`), then inserts
one `order_status_history` row `(order_id, 'pending', userId)` whose
`old_status` column is not set (NULL). -/
def createOrder (db : Db) (cid : String) (inp : CreateOrderInput) :
    Except ErrResp Order × Db :=
  if notesOk inp.notes then
    match findUserByClerkId db cid with
    | none =>
      (.error ⟨404, "User profile not found. Please complete your profile first."⟩, db)
    | some u =>
      let o : Order :=
        { id := db.nextId
          userId := u.id
          pickupAddress := inp.pickupAddress
          deliveryAddress := inp.deliveryAddress
          scheduledTime := inp.scheduledTime
          status := .pending
          serviceType := inp.serviceType
          itemCount := inp.itemCount
          price := pricingMap inp.serviceType
          driverId := none
          driverLocation := none
          notes := inp.notes }
      let h : HistoryEntry :=
        { orderId := o.id
          oldStatus := none
          newStatus := .pending
          changedBy := some u.id
          notes := none }
      (.ok o,
        { db with
            orders := db.orders ++ [o]
            history := db.history ++ [h]
            nextId := db.nextId + 1 })
  else
    (.error ⟨400, "Validation error"⟩, db)

/-! ### Status transition (`orderController.updateOrderStatus`) -/

/-- The handler `updateOrderStatus`.  Joi validates the target against the status enum
(captured by the `OrderStatus` type) and the notes bound; the current order
is loaded by id with no owner scoping; no check relates the old status to
the target; the row is updated and one history row
`(order_id, old_status, new_status, notes)` appended. -/
def updateOrderStatus (db : Db) (oid : Nat) (target : OrderStatus)
    (notes : Option String) : Except ErrResp Order × Db :=
  if notesOk notes then
    match findOrder db oid with
    | none => (.error ⟨404, "Order not found"⟩, db)
    | some o =>
      let h : HistoryEntry :=
        { orderId := oid
          oldStatus := some o.status
          newStatus := target
          changedBy := none
          notes := notes }
      let orders' := updateOrdersWhere db.orders oid
        (fun o' => { o' with status := target })
      (.ok { o with status := target },
        { db with orders := orders', history := db.history ++ [h] })
  else
    (.error ⟨400, "Validation error"⟩, db)

/-! ### Cancel (`orderController.cancelOrder`) -/

/-- The handler `cancelOrder`.  Resolves the user, loads the order scoped to that user,
rejects with a 400 if the status is already `completed` or `cancelled`,
otherwise sets the status to `cancelled` and appends one history row with
`changed_by` the user and the fixed note. -/
def cancelOrder (db : Db) (cid : String) (oid : Nat) :
    Except ErrResp Order × Db :=
  match findUserByClerkId db cid with
  | none => (.error ⟨404, "User not found"⟩, db)
  | some u =>
    match findOrderOwned db oid u.id with
    | none => (.error ⟨404, "Order not found"⟩, db)
    | some o =>
      if o.status = .completed ∨ o.status = .cancelled then
        (.error ⟨400, "Order cannot be cancelled"⟩, db)
      else
        let h : HistoryEntry :=
          { orderId := oid
            oldStatus := some o.status
            newStatus := .cancelled
            changedBy := some u.id
            notes := some "Cancelled by customer" }
        let orders' := updateOrdersWhere db.orders oid
          (fun o' => { o' with status := .cancelled })
        (.ok { o with status := .cancelled },
          { db with orders := orders', history := db.history ++ [h] })

/-! ### Saved addresses (`authController.addAddress` / `removeAddress`) -/

/-- The handler `addAddress`.  After Joi validation,
`UPDATE users SET saved_addresses = saved_addresses || jsonb_build_array($1)
WHERE clerk_id = $2 RETURNING *`; 404 when no row matched.  JSONB `||` with a
SQL NULL left operand yields NULL, modelled by `Option.map`. -/
def addAddress (db : Db) (cid : String) (a : SavedAddress) :
    Except ErrResp UserRec × Db :=
  match findUserByClerkId db cid with
  | none => (.error ⟨404, "Profile not found"⟩, db)
  | some u =>
    let u' := { u with savedAddresses := u.savedAddresses.map (fun l => l ++ [a]) }
    let users' := updateUsersWhere db.users cid
      (fun v => { v with savedAddresses := v.savedAddresses.map (fun l => l ++ [a]) })
    (.ok u', { db with users := users' })

/-- The subquery of `removeAddress`: keep the elements of the stored array
whose 0-based ordinality differs from the requested index
(`WHERE idx - 1 != $1`); `jsonb_agg` over zero rows is NULL, and the
surrounding COALESCE turns that into `'[]'`.  A NULL stored array produces
zero rows, hence also `[]`. -/
def removeAtIndex (l : List SavedAddress) (i : Nat) : List SavedAddress :=
  (l.enum.filter (fun p => p.1 ≠ i)).map (fun p => p.2)

/-- The handler `removeAddress`.  The route parameter is parsed with `parseInt`; a NaN
(`none` here) or negative result is rejected with a 400 before any database
access.  Otherwise the COALESCE'd aggregate above rewrites the
`saved_addresses` column, so the stored value is an array afterwards even
when it was NULL or becomes empty; 404 when no user row matched. -/
def removeAddress (db : Db) (cid : String) (index : Option Int) :
    Except ErrResp UserRec × Db :=
  match index with
  | none => (.error ⟨400, "Invalid index parameter"⟩, db)
  | some i =>
    if i < 0 then (.error ⟨400, "Invalid index parameter"⟩, db)
    else
      match findUserByClerkId db cid with
      | none => (.error ⟨404, "Profile not found"⟩, db)
      | some u =>
        let newList := removeAtIndex (u.savedAddresses.getD []) i.toNat
        let u' := { u with savedAddresses := some newList }
        let rewrite := fun (v : UserRec) =>
          { v with savedAddresses := some (removeAtIndex (v.savedAddresses.getD []) i.toNat) }
        let users' := updateUsersWhere db.users cid rewrite
        (.ok u', { db with users := users' })

/-! ### Charge (`paymentController.processPayment`) -/

/-- The external calls `processPayment` can make, in order: Clerk user fetch,
Stripe customer creation, Clerk metadata update, Stripe payment-intent
creation.  The conflict check runs before any of them. -/
inductive ExtCall
  | clerkGetUser
  | stripeCreateCustomer
  | clerkUpdateMetadata
  | stripeCreateIntent
deriving DecidableEq, Repr

/-- The Stripe payment-intent result consumed by `processPayment`:
`paymentIntent.id`, the optional first charge id
(`paymentIntent.charges?.data?.[0]?.id`), the processor status string, and
the client secret returned to the caller. -/
structure PaymentIntentResult where
  id : String
  chargeId : Option String
  status : String
  clientSecret : String
deriving DecidableEq, Repr

/-- Responses of the external services, fixed per request: the Clerk user's
`publicMetadata.stripeCustomerId`, the id a fresh Stripe customer would get,
and the outcome of the payment-intent creation (an error models a thrown
Stripe exception). -/
structure StripeEnv where
  existingCustomerId : Option String
  newCustomerId : String
  intent : Except String PaymentIntentResult
deriving Repr

/-- Successful response body of `processPayment`. -/
structure PaymentResponse where
  payment : Payment
  clientSecret : String
deriving DecidableEq, Repr

/-- The handler `processPayment`.  After Joi validation: resolve the user (404), load the
order scoped to the user (404), reject with a 400 if a completed payment
already exists for the order, then call out to Clerk/Stripe and insert a
payment row; a thrown external error is caught and recorded as a failed
payment with amount 0 and the error message, then re-signalled.  The third
component lists the external calls actually made. -/
def processPayment (env : StripeEnv) (db : Db) (cid : String) (oid : Nat)
    (paymentMethodId : String) : Except ErrResp PaymentResponse × Db × List ExtCall :=
  match findUserByClerkId db cid with
  | none => (.error ⟨404, "User not found"⟩, db, [])
  | some u =>
    match findOrderOwned db oid u.id with
    | none => (.error ⟨404, "Order not found"⟩, db, [])
    | some o =>
      if db.payments.any (fun p => p.orderId == oid && p.status == .completed) then
        (.error ⟨400, "Order already paid"⟩, db, [])
      else
        let customerCalls :=
          match env.existingCustomerId with
          | some _ => [ExtCall.clerkGetUser]
          | none => [ExtCall.clerkGetUser, ExtCall.stripeCreateCustomer,
                     ExtCall.clerkUpdateMetadata]
        match env.intent with
        | .error e =>
          let failed : Payment :=
            { id := db.nextId
              orderId := oid
              userId := u.id
              stripePaymentId := none
              stripePaymentIntentId := none
              amount := 0
              status := .failed
              paymentMethodId := none
              errorMessage := some e }
          (.error ⟨400, e⟩,
            { db with payments := db.payments ++ [failed], nextId := db.nextId + 1 },
            customerCalls ++ [ExtCall.stripeCreateIntent])
        | .ok r =>
          let p : Payment :=
            { id := db.nextId
              orderId := oid
              userId := u.id
              stripePaymentId := r.chargeId
              stripePaymentIntentId := some r.id
              amount := o.price
              status := if r.status == "succeeded" then .completed else .pending
              paymentMethodId := some paymentMethodId
              errorMessage := none }
          (.ok ⟨p, r.clientSecret⟩,
            { db with payments := db.payments ++ [p], nextId := db.nextId + 1 },
            customerCalls ++ [ExtCall.stripeCreateIntent])

/-! ### Client polling coordinator (`OrderManager` real-time updates)

`OrderManager` keeps `pollingTasks : [String: Task<Void, Never>]`.
`startRealTimeUpdates` first calls `stopRealTimeUpdates` (cancel + remove by
order id), then spawns the polling task and registers it under the order id.
Each task loops while not cancelled: sleep, re-check cancellation, fetch;
on a terminal status it calls `stopRealTimeUpdates` for its order id and
breaks; on exit it unconditionally runs
`pollingTasks.removeValue(forKey: orderId)`.  The model below is a
small-step system over these cooperative atomic sections; the scheduler is
an explicit event list. -/

/-- Phase of one spawned polling task: still in the polling loop, fallen out
of the loop but its cleanup block not yet run, or fully finished. -/
inductive TaskPhase
  | looping
  | cleaning
  | done
deriving DecidableEq, Repr

/-- One spawned polling task: its identity, the order id it polls, its
cooperative cancellation flag, and its phase. -/
structure PollTask where
  tid : Nat
  orderId : String
  cancelled : Bool
  phase : TaskPhase
deriving DecidableEq, Repr

/-- The coordinator state: the `pollingTasks` registry (order id → task id),
every task ever spawned, and a fresh task-id supply. -/
structure PollState where
  registry : List (String × Nat)
  tasks : List PollTask
  nextTid : Nat
deriving DecidableEq, Repr

/-- The empty coordinator. -/
def PollState.init : PollState := ⟨[], [], 0⟩

/-- Set the cancellation flag of one task (`Task.cancel()`). -/
def cancelTask (ts : List PollTask) (tid : Nat) : List PollTask :=
  ts.map (fun t => if t.tid == tid then { t with cancelled := true } else t)

/-- Set the phase of one task. -/
def setPhase (ts : List PollTask) (tid : Nat) (ph : TaskPhase) : List PollTask :=
  ts.map (fun t => if t.tid == tid then { t with phase := ph } else t)

/-- Swift `stopRealTimeUpdates(for:)`: cancel the registered task for the order id
if any, then remove the registry entry. -/
def stopRealTime (s : PollState) (oid : String) : PollState :=
  let tasks' :=
    match s.registry.lookup oid with
    | some tid => cancelTask s.tasks tid
    | none => s.tasks
  { s with tasks := tasks', registry := s.registry.filter (fun e => e.1 ≠ oid) }

/-- Swift `startRealTimeUpdates(for:)`: stop any registered task for the order id,
spawn a new looping task, and register it under the order id. -/
def startRealTime (s : PollState) (oid : String) : PollState :=
  let s1 := stopRealTime s oid
  { registry := (oid, s1.nextTid) :: s1.registry
    tasks := s1.tasks ++ [⟨s1.nextTid, oid, false, .looping⟩]
    nextTid := s1.nextTid + 1 }

/-- Swift `stopAllRealTimeUpdates()`: cancel every registered task and clear the
registry. -/
def stopAllRealTime (s : PollState) : PollState :=
  let tasks' := s.registry.foldl (fun ts e => cancelTask ts e.2) s.tasks
  { s with tasks := tasks', registry := [] }

/-- Scheduler events: the two coordinator calls, a task waking from its
sleep and observing its cancellation flag (`while !Task.isCancelled` /
`if Task.isCancelled break`), a fetch returning a terminal status, and a
task running its final cleanup block. -/
inductive PollEvent
  | start (oid : String)
  | stop (oid : String)
  | wake (tid : Nat)
  | fetchTerminal (tid : Nat)
  | cleanup (tid : Nat)
deriving DecidableEq, Repr

/-- Look a task up by id. -/
def findTask (s : PollState) (tid : Nat) : Option PollTask :=
  s.tasks.find? (fun t => t.tid == tid)

/-- One scheduler step.  `wake` moves a cancelled looping task out of its
loop (towards cleanup); an uncancelled one just loops again.  `fetchTerminal`
makes an uncancelled looping task observe a terminal order status: it calls
`stopRealTimeUpdates(for:)` on its own order id and breaks.  `cleanup` runs
the task's trailing `pollingTasks.removeValue(forKey: orderId)`, which
removes whatever entry is currently registered under that order id. -/
def pollStep (s : PollState) : PollEvent → PollState
  | .start oid => startRealTime s oid
  | .stop oid => stopRealTime s oid
  | .wake tid =>
    match findTask s tid with
    | some t =>
      if t.phase = .looping ∧ t.cancelled then
        { s with tasks := setPhase s.tasks tid .cleaning }
      else s
    | none => s
  | .fetchTerminal tid =>
    match findTask s tid with
    | some t =>
      if t.phase = .looping ∧ ¬t.cancelled then
        let s1 := stopRealTime s t.orderId
        { s1 with tasks := setPhase s1.tasks tid .cleaning }
      else s
    | none => s
  | .cleanup tid =>
    match findTask s tid with
    | some t =>
      if t.phase = .cleaning then
        { s with
            registry := s.registry.filter (fun e => e.1 ≠ t.orderId)
            tasks := setPhase s.tasks tid .done }
      else s
    | none => s

/-- Run a sequence of scheduler events. -/
def pollRun (s : PollState) (evs : List PollEvent) : PollState :=
  evs.foldl pollStep s

/-- The tasks still actively polling an order id: in the loop and not
cancelled (a cancelled task performs no further fetch). -/
def activeTimers (s : PollState) (oid : String) : Nat :=
  (s.tasks.filter (fun t => t.orderId == oid && !t.cancelled && t.phase == .looping)).length

/-! ### Sequences of operations -/

/-- Apply a sequence of status-transition requests to one order, keeping the
database each request leaves behind. -/
def applyStatusUpdates (db : Db) (oid : Nat) (ts : List OrderStatus) : Db :=
  ts.foldl (fun d t => (updateOrderStatus d oid t none).2) db

/-- Whether every request of a status-transition sequence succeeds (each
request runs on the database left by the previous one). -/
def statusUpdatesSucceed (db : Db) (oid : Nat) : List OrderStatus → Bool
  | [] => true
  | t :: ts =>
    match updateOrderStatus db oid t none with
    | (.ok _, d2) => statusUpdatesSucceed d2 oid ts
    | (.error _, _) => false

/-- A history list is chained from `prev` when the first entry's old status
is `prev` and each later entry's old status is the previous entry's new
status. -/
def chainedFrom (prev : Option OrderStatus) : List HistoryEntry → Bool
  | [] => true
  | h :: t => (h.oldStatus == prev) && chainedFrom (some h.newStatus) t

/-- The history rows `updateOrderStatus` appends for a transition sequence
starting from status `s`. -/
def transEntries (oid : Nat) (s : OrderStatus) : List OrderStatus → List HistoryEntry
  | [] => []
  | t :: ts => ⟨oid, some s, t, none, none⟩ :: transEntries oid t ts

/-- An address-book operation (the two authController endpoints). -/
inductive AddrOp
  | add (a : SavedAddress)
  | remove (i : Option Int)
deriving Repr

/-- Apply a sequence of address-book operations for one clerk id. -/
def applyAddrOps (db : Db) (cid : String) (ops : List AddrOp) : Db :=
  ops.foldl (fun d op =>
    match op with
    | .add a => (addAddress d cid a).2
    | .remove i => (removeAddress d cid i).2) db

/-! ### Sample rows used to instantiate hypotheses on concrete databases -/

/-- A concrete structured address. -/
def sampleAddr : Address := ⟨"123 Main St", "Springfield", "IL", "62704", none, none⟩

/-- A concrete user profile with the empty saved-address list. -/
def sampleUser : UserRec := ⟨0, "clerk_1", some "Ann", none, some sampleAddr, some []⟩

/-- A database holding just the sample user. -/
def sampleDb : Db := ⟨[sampleUser], [], [], [], 1⟩

/-- A concrete order-creation request. -/
def sampleInput : CreateOrderInput :=
  ⟨sampleAddr, sampleAddr, "2026-10-12T10:00:00Z", .express, 5, none⟩

/-- A concrete saved address. -/
def sampleSaved : SavedAddress := ⟨"Home", "123 Main St", "Springfield", "IL", "62704"⟩

/-! ### List lemmas about the row-rewriting updates -/

theorem find_append_last {α} (p : α → Bool) (l : List α) (a : α)
    (hl : ∀ x ∈ l, p x = false) (ha : p a = true) :
    (l ++ [a]).find? p = some a := by
  induction l with
  | nil => simp [List.find?, ha]
  | cons hd tl ih =>
    have hhd : p hd = false := hl hd (by simp)
    simp only [List.cons_append, List.find?]
    rw [hhd]
    exact ih (fun x hx => hl x (List.mem_cons_of_mem _ hx))

theorem findOrder_updateOrdersWhere (l : List Order) (oid : Nat)
    (f : Order → Order) (hf : ∀ o, (f o).id = o.id) (o : Order)
    (h : l.find? (fun o' => o'.id == oid) = some o) :
    (updateOrdersWhere l oid f).find? (fun o' => o'.id == oid) = some (f o) := by
  induction l with
  | nil => simp [List.find?] at h
  | cons hd tl ih =>
    unfold updateOrdersWhere
    simp only [List.map_cons]
    cases hhd : (hd.id == oid) with
    | true =>
      have h' : hd = o := by
        simp only [List.find?, hhd] at h
        exact Option.some.inj h
      subst h'
      have hp : ((f hd).id == oid) = true := by rw [hf hd]; exact hhd
      simp only [hhd, if_true, List.find?, hp]
    | false =>
      simp only [List.find?, hhd] at h
      simp [hhd, List.find?]
      simpa [updateOrdersWhere] using ih h

theorem findUser_updateUsersWhere (l : List UserRec) (cid : String)
    (f : UserRec → UserRec) (hf : ∀ u, (f u).clerkId = u.clerkId) (u : UserRec)
    (h : l.find? (fun v => v.clerkId == cid) = some u) :
    (updateUsersWhere l cid f).find? (fun v => v.clerkId == cid) = some (f u) := by
  induction l with
  | nil => simp [List.find?] at h
  | cons hd tl ih =>
    unfold updateUsersWhere
    simp only [List.map_cons]
    cases hhd : (hd.clerkId == cid) with
    | true =>
      have h' : hd = u := by
        simp only [List.find?, hhd] at h
        exact Option.some.inj h
      subst h'
      have hp : ((f hd).clerkId == cid) = true := by rw [hf hd]; exact hhd
      simp only [hhd, if_true, List.find?, hp]
    | false =>
      simp only [List.find?, hhd] at h
      simp [hhd, List.find?]
      simpa [updateUsersWhere] using ih h

/-! ### C6: unverifiable webhook signature -/

/-- C6.  A webhook request whose signature does not verify (the
`constructEvent` call throws) is answered with the 400 `Webhook Error`
response and the database — in particular every Payment record — is
returned unchanged. -/
theorem webhook_bad_signature_rejected_no_change (db : Db) (e : String) :
    stripeWebhook db (.error e) = (.badRequest ("Webhook Error: " ++ e), db) := rfl

/-! ### C10: polling coordinator registry discipline -/

/-- C10.  The claim that at most one active polling timer can exist per
order id fails on the code: after start, start, the first (cancelled) task's
unconditional `removeValue(forKey: orderId)` cleanup deletes the *second*
task's registry entry, so while exactly one timer is active the registry no
longer knows it, and a third start then yields two concurrently active
timers for the same order id. -/
theorem polling_restart_clobber_two_active_timers :
    activeTimers (pollRun PollState.init
      [.start "A", .start "A", .wake 0, .cleanup 0]) "A" = 1
    ∧ (pollRun PollState.init
        [.start "A", .start "A", .wake 0, .cleanup 0]).registry.lookup "A" = none
    ∧ activeTimers (pollRun PollState.init
        [.start "A", .start "A", .wake 0, .cleanup 0, .start "A"]) "A" = 2 := by
  refine ⟨?_, ?_, ?_⟩ <;> rfl

/-! ### C7: webhook reconciliation and payment status -/

/-- A payment that is already `refunded` (not `pending`). -/
def cxPayment : Payment := ⟨0, 1, 0, none, some "pi_1", 40, .refunded, none, none⟩

/-- A database holding only that payment. -/
def cxDb : Db := ⟨[sampleUser], [], [], [cxPayment], 2⟩

/-- C7, counterexample.  The webhook `UPDATE` has no status filter: a
verified charge-succeeded event moves a payment whose status is `refunded`
(hence not `pending`) to `completed`, contradicting the claim that a
non-pending Payment is never moved by a webhook event. -/
theorem webhook_moves_non_pending_payment :
    cxPayment.status ≠ .pending
    ∧ (stripeWebhook cxDb (.ok (.paymentIntentSucceeded "pi_1"))).2.payments
        = [{ cxPayment with status := .completed }]
    ∧ ({ cxPayment with status := .completed } : Payment).status ≠ cxPayment.status := by
  refine ⟨by decide, rfl, by decide⟩

/-- C7, amended.  Webhook reconciliation rewrites every payment whose
payment-intent id matches the event — to `completed` on charge-succeeded,
to `failed` with the processor-supplied message on charge-failed — and
leaves every other payment untouched, irrespective of the prior status. -/
theorem webhook_sets_matching_regardless_of_prior_status (db : Db)
    (pid : String) (msg : Option String) :
    ((stripeWebhook db (.ok (.paymentIntentSucceeded pid))).2.payments.length
        = db.payments.length)
    ∧ ((stripeWebhook db (.ok (.paymentIntentFailed pid msg))).2.payments.length
        = db.payments.length)
    ∧ (∀ i (h : i < db.payments.length)
          (h1 : i < (stripeWebhook db (.ok (.paymentIntentSucceeded pid))).2.payments.length),
        (db.payments[i].stripePaymentIntentId = some pid →
          (stripeWebhook db (.ok (.paymentIntentSucceeded pid))).2.payments[i]
            = { db.payments[i] with status := .completed })
        ∧ (db.payments[i].stripePaymentIntentId ≠ some pid →
          (stripeWebhook db (.ok (.paymentIntentSucceeded pid))).2.payments[i]
            = db.payments[i]))
    ∧ (∀ i (h : i < db.payments.length)
          (h1 : i < (stripeWebhook db (.ok (.paymentIntentFailed pid msg))).2.payments.length),
        (db.payments[i].stripePaymentIntentId = some pid →
          (stripeWebhook db (.ok (.paymentIntentFailed pid msg))).2.payments[i]
            = { db.payments[i] with status := .failed, errorMessage := msg })
        ∧ (db.payments[i].stripePaymentIntentId ≠ some pid →
          (stripeWebhook db (.ok (.paymentIntentFailed pid msg))).2.payments[i]
            = db.payments[i])) := by
  refine ⟨by simp [stripeWebhook], by simp [stripeWebhook], ?_, ?_⟩
  · intro i h h1
    constructor
    · intro hmatch
      have hb : (db.payments[i].stripePaymentIntentId == some pid) = true := by
        simp [hmatch]
      simp only [stripeWebhook, List.getElem_map, hb, if_true]
    · intro hmatch
      have hb : (db.payments[i].stripePaymentIntentId == some pid) = false := by
        simp [hmatch]
      simp only [stripeWebhook, List.getElem_map, hb, Bool.false_eq_true, if_false]
  · intro i h h1
    constructor
    · intro hmatch
      have hb : (db.payments[i].stripePaymentIntentId == some pid) = true := by
        simp [hmatch]
      simp only [stripeWebhook, List.getElem_map, hb, if_true]
    · intro hmatch
      have hb : (db.payments[i].stripePaymentIntentId == some pid) = false := by
        simp [hmatch]
      simp only [stripeWebhook, List.getElem_map, hb, Bool.false_eq_true, if_false]

/-! ### C5: idempotent succeeded-webhook reconciliation -/

/-- Rewriting matching payments to `completed` is idempotent on the list. -/
theorem map_complete_idem (ps : List Payment) (pid : String) :
    (ps.map (fun p => if p.stripePaymentIntentId == some pid then
        { p with status := .completed } else p)).map
      (fun p => if p.stripePaymentIntentId == some pid then
        { p with status := .completed } else p)
    = ps.map (fun p => if p.stripePaymentIntentId == some pid then
        { p with status := .completed } else p) := by
  induction ps with
  | nil => rfl
  | cons hd tl ih =>
    simp only [List.map_cons, ih]
    by_cases h : hd.stripePaymentIntentId = some pid
    · have hb : (hd.stripePaymentIntentId == some pid) = true := by simp [h]
      simp [hb]
    · have hb : (hd.stripePaymentIntentId == some pid) = false := by simp [h]
      simp [hb]

/-- C5.  A verified charge-succeeded event settles every matching payment at
`completed`; redelivering the same event leaves the database exactly as
after the first delivery and is acknowledged with `received`; a verified
event of an unrecognized type is acknowledged and changes nothing. -/
theorem webhook_succeeded_idempotent (db : Db) (pid : String) (t : String) :
    (stripeWebhook db (.ok (.paymentIntentSucceeded pid))).1 = .received
    ∧ (∀ p ∈ (stripeWebhook db (.ok (.paymentIntentSucceeded pid))).2.payments,
        p.stripePaymentIntentId = some pid → p.status = .completed)
    ∧ stripeWebhook (stripeWebhook db (.ok (.paymentIntentSucceeded pid))).2
        (.ok (.paymentIntentSucceeded pid))
      = (.received, (stripeWebhook db (.ok (.paymentIntentSucceeded pid))).2)
    ∧ stripeWebhook db (.ok (.other t)) = (.received, db) := by
  refine ⟨rfl, ?_, ?_, rfl⟩
  · intro p hp hpid
    simp only [stripeWebhook] at hp
    rcases List.mem_map.1 hp with ⟨q, hq, rfl⟩
    by_cases h : q.stripePaymentIntentId = some pid
    · have hb : (q.stripePaymentIntentId == some pid) = true := by simp [h]
      simp [hb]
    · have hb : (q.stripePaymentIntentId == some pid) = false := by simp [h]
      rw [hb] at hpid
      simp at hpid
      exact absurd hpid h
  · simp only [stripeWebhook]
    rw [map_complete_idem]

/-! ### C8: driver-location validation -/

/-- C8.  The driver-location update rejects any request where either
coordinate fails `Number.isFinite` — NaN, either infinity, `null`, strings,
booleans, absent values — with a 400 and an unchanged database; a finite
number is exactly a `JsVal.num` (so `0` is accepted); and with both
coordinates finite numbers and the order present, the update succeeds and
every row of that order carries the new coordinate pair with the capture
timestamp. -/
theorem driver_location_finite_validation (db : Db) (oid : Nat) (now : String) :
    (∀ lat lng, (jsIsFinite lat && jsIsFinite lng) = false →
      updateDriverLocation db oid lat lng now
        = (.error ⟨400, "Valid latitude and longitude coordinates required"⟩, db))
    ∧ (∀ v, jsIsFinite v = true ↔ ∃ q, v = JsVal.num q)
    ∧ (∀ la lo o, findOrder db oid = some o →
        (updateDriverLocation db oid (.num la) (.num lo) now).1
          = .ok { o with driverLocation := some ⟨la, lo, now⟩ }
        ∧ ∀ o' ∈ (updateDriverLocation db oid (.num la) (.num lo) now).2.orders,
            o'.id = oid → o'.driverLocation = some ⟨la, lo, now⟩) := by
  refine ⟨?_, ?_, ?_⟩
  · intro lat lng hfin
    simp only [updateDriverLocation, hfin, Bool.false_eq_true, if_false]
  · intro v
    cases v <;> simp [jsIsFinite]
  · intro la lo o ho
    have hstep : updateDriverLocation db oid (.num la) (.num lo) now
        = (.ok { o with driverLocation := some ⟨la, lo, now⟩ },
           { db with orders := updateOrdersWhere db.orders oid (fun o' => { o' with driverLocation := some (⟨la, lo, now⟩ : DriverLocation) }) }) := by
      simp only [updateDriverLocation, jsIsFinite, Bool.and_self, if_true, ho]
    refine ⟨by rw [hstep], ?_⟩
    intro o' ho' hid
    rw [hstep] at ho'
    simp only [updateOrdersWhere, List.mem_map] at ho'
    rcases ho' with ⟨o2, _, rfl⟩
    by_cases h2 : o2.id = oid
    · simp [h2]
    · rw [if_neg (by simp [h2])] at hid
      exact absurd hid h2

/-! ### C3: cancel legality -/

/-- C3.  For an order owned by the requesting user: if its status is already
terminal (`completed` or `cancelled`) the cancel request fails with the 400
conflict response and the database — status and history included — is
unchanged; in any non-terminal status the cancel succeeds, every row of the
order becomes `cancelled`, and exactly one history entry is appended
recording the transition. -/
theorem cancel_order_terminal_conflict (db : Db) (cid : String) (oid : Nat)
    (u : UserRec) (o : Order)
    (hu : findUserByClerkId db cid = some u)
    (ho : findOrderOwned db oid u.id = some o) :
    ((o.status = .completed ∨ o.status = .cancelled) →
      cancelOrder db cid oid = (.error ⟨400, "Order cannot be cancelled"⟩, db))
    ∧ (o.status ≠ .completed → o.status ≠ .cancelled →
        (cancelOrder db cid oid).1 = .ok { o with status := .cancelled }
        ∧ (∀ o' ∈ (cancelOrder db cid oid).2.orders, o'.id = oid → o'.status = .cancelled)
        ∧ (cancelOrder db cid oid).2.history
            = db.history ++
              [⟨oid, some o.status, .cancelled, some u.id, some "Cancelled by customer"⟩]) := by
  constructor
  · intro hterm
    simp only [cancelOrder, hu, ho, if_pos hterm]
  · intro hc1 hc2
    have hterm : ¬(o.status = .completed ∨ o.status = .cancelled) := by
      rintro (h | h) <;> [exact hc1 h; exact hc2 h]
    have hstep : cancelOrder db cid oid
        = (.ok { o with status := .cancelled },
           { db with
               orders := updateOrdersWhere db.orders oid
                 (fun o' => { o' with status := .cancelled }),
               history := db.history ++
                 [⟨oid, some o.status, .cancelled, some u.id, some "Cancelled by customer"⟩] }) := by
      simp only [cancelOrder, hu, ho, if_neg hterm]
    refine ⟨by rw [hstep], ?_, by rw [hstep]⟩
    intro o' ho' hid
    rw [hstep] at ho'
    simp only [updateOrdersWhere, List.mem_map] at ho'
    rcases ho' with ⟨o2, _, rfl⟩
    by_cases h2 : o2.id = oid
    · simp [h2]
    · rw [if_neg (by simp [h2])] at hid
      exact absurd hid h2

/-! ### C4: double charge -/

/-- C4.  When a completed payment already exists for the order, a further
charge attempt by the order's owner is rejected with the 400
`Order already paid` response before any external interaction: the database
is unchanged and the external-call trace is empty (no Clerk customer
resolution, no Stripe charge creation). -/
theorem double_charge_rejected_no_external_call (env : StripeEnv) (db : Db)
    (cid : String) (oid : Nat) (pm : String) (u : UserRec) (o : Order) (p : Payment)
    (hu : findUserByClerkId db cid = some u)
    (ho : findOrderOwned db oid u.id = some o)
    (hp : p ∈ db.payments) (hpo : p.orderId = oid) (hps : p.status = .completed) :
    processPayment env db cid oid pm = (.error ⟨400, "Order already paid"⟩, db, []) := by
  have hany : (db.payments.any (fun q => q.orderId == oid && q.status == .completed)) = true := by
    rw [List.any_eq_true]
    exact ⟨p, hp, by simp [hpo, hps]⟩
  simp only [processPayment, hu, ho, hany, if_true]

/-! ### C2: order creation -/

/-- The order row `createOrder` inserts for user `u` and input `inp`. -/
def createdOrder (db : Db) (u : UserRec) (inp : CreateOrderInput) : Order :=
  { id := db.nextId
    userId := u.id
    pickupAddress := inp.pickupAddress
    deliveryAddress := inp.deliveryAddress
    scheduledTime := inp.scheduledTime
    status := .pending
    serviceType := inp.serviceType
    itemCount := inp.itemCount
    price := pricingMap inp.serviceType
    driverId := none
    driverLocation := none
    notes := inp.notes }

/-- C2.  For a valid creation input from a user with an existing profile,
`createOrder` succeeds with a `pending` order priced at the tier's fixed
base price (standard 25.00, express 40.00, premium 60.00); the price does
not depend on the item count; and the new order has exactly one history
entry, with old status NULL and new status `pending`. -/
theorem create_order_pending_fixed_price (db : Db) (cid : String)
    (inp : CreateOrderInput) (u : UserRec)
    (hu : findUserByClerkId db cid = some u)
    (hnotes : notesOk inp.notes = true)
    (hfreshH : ∀ h ∈ db.history, h.orderId ≠ db.nextId) :
    ∃ o db1, createOrder db cid inp = (.ok o, db1)
      ∧ o.status = .pending
      ∧ o.price = pricingMap inp.serviceType
      ∧ pricingMap .standard = 25 ∧ pricingMap .express = 40 ∧ pricingMap .premium = 60
      ∧ (∀ n : Nat, ∃ o' db', createOrder db cid { inp with itemCount := n } = (.ok o', db')
          ∧ o'.price = o.price)
      ∧ historyFor db1 o.id = [⟨o.id, none, .pending, some u.id, none⟩] := by
  have hstep : createOrder db cid inp
      = (.ok (createdOrder db u inp),
         { db with
             orders := db.orders ++ [createdOrder db u inp],
             history := db.history ++ [⟨db.nextId, none, .pending, some u.id, none⟩],
             nextId := db.nextId + 1 }) := by
    simp only [createOrder, hnotes, if_true, hu, createdOrder]
  refine ⟨_, _, hstep, rfl, rfl, rfl, rfl, rfl, ?_, ?_⟩
  · intro n
    have hn : notesOk ({ inp with itemCount := n } : CreateOrderInput).notes = true := hnotes
    have hstep2 : createOrder db cid { inp with itemCount := n }
        = (.ok (createdOrder db u { inp with itemCount := n }),
           { db with
               orders := db.orders ++ [createdOrder db u { inp with itemCount := n }],
               history := db.history ++ [⟨db.nextId, none, .pending, some u.id, none⟩],
               nextId := db.nextId + 1 }) := by
      simp only [createOrder, hn, if_true, hu, createdOrder]
    exact ⟨_, _, hstep2, rfl⟩
  · unfold historyFor
    simp only [createdOrder, List.filter_append]
    have h1 : db.history.filter (fun h => h.orderId == db.nextId) = [] := by
      rw [List.filter_eq_nil_iff]
      intro a ha
      simpa using hfreshH a ha
    rw [h1]
    simp

/-! ### C1: arbitrary status-transition sequences -/

/-- One successful status transition: for any present order and any target
status, `updateOrderStatus` succeeds (no legality check), rewrites the
order's rows and appends one history entry chaining old to new. -/
theorem updateOrderStatus_ok (db : Db) (oid : Nat) (t : OrderStatus) (o : Order)
    (h : findOrder db oid = some o) :
    updateOrderStatus db oid t none
      = (.ok { o with status := t },
         { db with
             orders := updateOrdersWhere db.orders oid (fun o' => { o' with status := t }),
             history := db.history ++ [⟨oid, some o.status, t, none, none⟩] }) := by
  simp only [updateOrderStatus, notesOk, if_true, h]

theorem foldl_pick_last (ts : List OrderStatus) :
    ∀ (s : OrderStatus) (h : ts ≠ []),
      ts.foldl (fun _ t => t) s = ts.getLast h := by
  induction ts with
  | nil => intro s h; exact absurd rfl h
  | cons t ts ih =>
    intro s h
    cases ts with
    | nil => rfl
    | cons t2 ts2 =>
      rw [List.getLast_cons (by simp)]
      exact ih t2 (by simp)

theorem transEntries_length (oid : Nat) (ts : List OrderStatus) :
    ∀ s, (transEntries oid s ts).length = ts.length := by
  induction ts with
  | nil => intro s; rfl
  | cons t ts ih => intro s; simp [transEntries, ih t]

theorem transEntries_filter (oid : Nat) (ts : List OrderStatus) :
    ∀ s, (transEntries oid s ts).filter (fun h => h.orderId == oid)
      = transEntries oid s ts := by
  induction ts with
  | nil => intro s; rfl
  | cons t ts ih => intro s; simp [transEntries, List.filter, ih t]

theorem chainedFrom_transEntries (oid : Nat) (ts : List OrderStatus) :
    ∀ s, chainedFrom (some s) (transEntries oid s ts) = true := by
  induction ts with
  | nil => intro s; rfl
  | cons t ts ih => intro s; simp [transEntries, chainedFrom, ih t]

/-- Folding any transition sequence over a present order: every request
succeeds, the order's rows end at the last target (or stay put for the empty
sequence), and the history grows by exactly the chained entries. -/
theorem applyStatusUpdates_spec (oid : Nat) (ts : List OrderStatus) :
    ∀ (db : Db) (o : Order), findOrder db oid = some o →
      statusUpdatesSucceed db oid ts = true
      ∧ findOrder (applyStatusUpdates db oid ts) oid
          = some { o with status := ts.foldl (fun _ t => t) o.status }
      ∧ (applyStatusUpdates db oid ts).history
          = db.history ++ transEntries oid o.status ts := by
  induction ts with
  | nil =>
    intro db o h
    refine ⟨rfl, ?_, by simp [applyStatusUpdates, transEntries]⟩
    simpa [applyStatusUpdates] using h
  | cons t ts ih =>
    intro db o h
    have step := updateOrderStatus_ok db oid t o h
    have hfind2 : findOrder
        { db with
            orders := updateOrdersWhere db.orders oid (fun o' => { o' with status := t }),
            history := db.history ++ [⟨oid, some o.status, t, none, none⟩] } oid
        = some { o with status := t } := by
      have := findOrder_updateOrdersWhere db.orders oid
        (fun o' => { o' with status := t }) (fun _ => rfl) o (by simpa [findOrder] using h)
      simpa [findOrder] using this
    obtain ⟨hs, hf, hh⟩ := ih _ _ hfind2
    have happ : applyStatusUpdates db oid (t :: ts)
        = applyStatusUpdates
            { db with
                orders := updateOrdersWhere db.orders oid (fun o' => { o' with status := t }),
                history := db.history ++ [⟨oid, some o.status, t, none, none⟩] } oid ts := by
      simp [applyStatusUpdates, step]
    refine ⟨?_, ?_, ?_⟩
    · simp only [statusUpdatesSucceed, step]
      exact hs
    · rw [happ, hf]
      rfl
    · rw [happ, hh]
      simp [transEntries]

/-- C1.  Starting from a freshly created order, every finite sequence of
status-transition requests succeeds — no edge-legality check restricts any
step, terminal states included — after which the order's status is the last
request's target, the order has exactly N+1 history entries (creation entry
included), and each entry's old status equals the previous entry's new
status (the creation entry's old status being NULL). -/
theorem status_transition_sequence (db : Db) (cid : String)
    (inp : CreateOrderInput) (o : Order) (db1 : Db)
    (hcreate : createOrder db cid inp = (.ok o, db1))
    (hfreshO : ∀ o' ∈ db.orders, o'.id ≠ db.nextId)
    (hfreshH : ∀ h ∈ db.history, h.orderId ≠ db.nextId)
    (ts : List OrderStatus) (hts : ts ≠ []) :
    statusUpdatesSucceed db1 o.id ts = true
    ∧ (findOrder (applyStatusUpdates db1 o.id ts) o.id).map (fun x => x.status)
        = some (ts.getLast hts)
    ∧ (historyFor (applyStatusUpdates db1 o.id ts) o.id).length = ts.length + 1
    ∧ chainedFrom none (historyFor (applyStatusUpdates db1 o.id ts) o.id) = true := by
  -- Unpack what createOrder returned.
  rw [createOrder] at hcreate
  by_cases hn : notesOk inp.notes
  case neg => simp [hn] at hcreate
  case pos =>
    rw [if_pos hn] at hcreate
    cases hu : findUserByClerkId db cid with
    | none => rw [hu] at hcreate; simp at hcreate
    | some u =>
      rw [hu] at hcreate
      have ho : o = createdOrder db u inp := by
        have := congrArg Prod.fst hcreate
        simpa [createdOrder] using this.symm
      have hdb1 : db1 = { db with
          orders := db.orders ++ [createdOrder db u inp],
          history := db.history ++ [⟨db.nextId, none, .pending, some u.id, none⟩],
          nextId := db.nextId + 1 } := by
        have := congrArg Prod.snd hcreate
        simpa [createdOrder] using this.symm
      subst ho
      subst hdb1
      have hid : (createdOrder db u inp).id = db.nextId := rfl
      have hfind1 : findOrder
          { db with
              orders := db.orders ++ [createdOrder db u inp],
              history := db.history ++ [⟨db.nextId, none, .pending, some u.id, none⟩],
              nextId := db.nextId + 1 } (createdOrder db u inp).id
          = some (createdOrder db u inp) := by
        unfold findOrder
        exact find_append_last _ db.orders _
          (fun x hx => by simpa [hid] using hfreshO x hx) (by simp)
      obtain ⟨hs, hf, hh⟩ := applyStatusUpdates_spec (createdOrder db u inp).id ts _ _ hfind1
      have hhist : historyFor
          (applyStatusUpdates
            { db with
                orders := db.orders ++ [createdOrder db u inp],
                history := db.history ++ [⟨db.nextId, none, .pending, some u.id, none⟩],
                nextId := db.nextId + 1 } (createdOrder db u inp).id ts)
          (createdOrder db u inp).id
          = ⟨db.nextId, none, .pending, some u.id, none⟩ ::
              transEntries (createdOrder db u inp).id .pending ts := by
        unfold historyFor
        rw [hh]
        simp only [List.append_assoc, List.filter_append]
        have h1 : db.history.filter (fun h => h.orderId == (createdOrder db u inp).id) = [] := by
          rw [List.filter_eq_nil_iff]
          intro a ha
          simpa [hid] using hfreshH a ha
        rw [h1]
        have h2 : (transEntries (createdOrder db u inp).id
            (createdOrder db u inp).status ts).filter
              (fun h => h.orderId == (createdOrder db u inp).id)
            = transEntries (createdOrder db u inp).id (createdOrder db u inp).status ts :=
          transEntries_filter _ ts _
        simp only [List.nil_append, List.filter_append, h2]
        simp [createdOrder]
      refine ⟨hs, ?_, ?_, ?_⟩
      · rw [hf]
        show some (List.foldl (fun _ t => t) (createdOrder db u inp).status ts)
          = some (ts.getLast hts)
        rw [foldl_pick_last ts _ hts]
      · rw [hhist]
        simp [transEntries_length]
      · rw [hhist]
        simp only [chainedFrom]
        exact chainedFrom_transEntries _ ts .pending

/-! ### C9: saved addresses stay a list -/

/-- One successful add: the stored array is concatenated with the new
element (NULL propagates through the JSONB `||`, hence `Option.map`). -/
theorem addAddress_step (db : Db) (cid : String) (a : SavedAddress) (u : UserRec)
    (hu : findUserByClerkId db cid = some u) :
    (addAddress db cid a).1
      = .ok { u with savedAddresses := u.savedAddresses.map (fun l => l ++ [a]) }
    ∧ findUserByClerkId (addAddress db cid a).2 cid
      = some { u with savedAddresses := u.savedAddresses.map (fun l => l ++ [a]) } := by
  have hu' : List.find? (fun v => v.clerkId == cid) db.users = some u := by
    simpa [findUserByClerkId] using hu
  have h2 := findUser_updateUsersWhere db.users cid
    (fun v => { v with savedAddresses := v.savedAddresses.map (fun l => l ++ [a]) })
    (fun _ => rfl) u hu'
  constructor
  · simp only [addAddress, hu]
  · simp only [addAddress, findUserByClerkId, hu']
    exact h2

/-- One successful remove with a valid index: the stored array becomes the
COALESCE'd filtered aggregate, an array in every case. -/
theorem removeAddress_step (db : Db) (cid : String) (i : Int) (hi : ¬ i < 0)
    (u : UserRec) (hu : findUserByClerkId db cid = some u) :
    findUserByClerkId (removeAddress db cid (some i)).2 cid
      = some { u with savedAddresses := some (removeAtIndex (u.savedAddresses.getD []) i.toNat) } := by
  have hu' : List.find? (fun v => v.clerkId == cid) db.users = some u := by
    simpa [findUserByClerkId] using hu
  have h2 := findUser_updateUsersWhere db.users cid
    (fun v => { v with savedAddresses := some (removeAtIndex (v.savedAddresses.getD []) i.toNat) })
    (fun _ => rfl) u hu'
  simp only [removeAddress, if_neg hi, findUserByClerkId, hu']
  exact h2

/-- The saved-address column stays a JSON array (never NULL) under every
sequence of add/remove operations, provided it is an array to start with
(the migration default `'[]'::jsonb` guarantees that at creation). -/
theorem addrOps_preserve_some (cid : String) :
    ∀ (ops : List AddrOp) (db : Db) (u : UserRec),
      findUserByClerkId db cid = some u → u.savedAddresses.isSome = true →
      ∃ v, findUserByClerkId (applyAddrOps db cid ops) cid = some v
        ∧ v.savedAddresses.isSome = true := by
  intro ops
  induction ops with
  | nil =>
    intro db u hu hsome
    exact ⟨u, by simpa [applyAddrOps] using hu, hsome⟩
  | cons op ops ih =>
    intro db u hu hsome
    cases op with
    | add a =>
      have hstep := (addAddress_step db cid a u hu).2
      have hkeep : ({ u with savedAddresses := u.savedAddresses.map (fun l => l ++ [a]) } :
          UserRec).savedAddresses.isSome = true := by
        cases hs : u.savedAddresses with
        | none => rw [hs] at hsome; simp at hsome
        | some l => simp
      exact ih _ _ hstep hkeep
    | remove i =>
      cases i with
      | none => exact ih db u hu hsome
      | some j =>
        by_cases hj : j < 0
        · have hunch : (removeAddress db cid (some j)).2 = db := by
            simp [removeAddress, hj]
          have hred : applyAddrOps db cid (AddrOp.remove (some j) :: ops)
              = applyAddrOps (removeAddress db cid (some j)).2 cid ops := rfl
          rw [hred, hunch]
          exact ih db u hu hsome
        · exact ih _ _ (removeAddress_step db cid j hj u hu) (by simp)

/-- C9.  Assuming the user's saved-address column is an array: it remains an
array (never NULL/absent) after every sequence of add/remove operations;
adding to the empty list succeeds and yields the one-element list — a list,
not a bare object; and removing the only element yields the empty list. -/
theorem saved_addresses_always_list (db : Db) (cid : String) (u : UserRec)
    (hu : findUserByClerkId db cid = some u) :
    (u.savedAddresses.isSome = true →
      ∀ ops, ∃ v, findUserByClerkId (applyAddrOps db cid ops) cid = some v
        ∧ v.savedAddresses.isSome = true)
    ∧ (u.savedAddresses = some [] → ∀ a : SavedAddress,
        (addAddress db cid a).1 = .ok { u with savedAddresses := some [a] }
        ∧ findUserByClerkId (addAddress db cid a).2 cid
            = some { u with savedAddresses := some [a] })
    ∧ (∀ a : SavedAddress, u.savedAddresses = some [a] →
        findUserByClerkId (removeAddress db cid (some 0)).2 cid
          = some { u with savedAddresses := some [] }) := by
  refine ⟨fun hsome ops => addrOps_preserve_some cid ops db u hu hsome, ?_, ?_⟩
  · intro hempty a
    have h := addAddress_step db cid a u hu
    rw [hempty] at h
    exact h
  · intro a hone
    have h := removeAddress_step db cid 0 (by norm_num) u hu
    rw [hone] at h
    exact h

/-! ### Concrete instantiations -/

/-- The order the sample creation request inserts. -/
def wOrder : Order := createdOrder sampleDb sampleUser sampleInput

/-- The database after the sample creation request. -/
def wDb1 : Db := ⟨[sampleUser], [wOrder], [⟨1, none, .pending, some 0, none⟩], [], 2⟩

/-- C1 instantiated: two transitions on the freshly created sample order. -/
theorem status_transition_sequence_witness :
    statusUpdatesSucceed wDb1 wOrder.id [.picked_up, .completed] = true
    ∧ (findOrder (applyStatusUpdates wDb1 wOrder.id [.picked_up, .completed]) wOrder.id).map
        (fun x => x.status)
        = some (([OrderStatus.picked_up, OrderStatus.completed]).getLast (by decide))
    ∧ (historyFor (applyStatusUpdates wDb1 wOrder.id [.picked_up, .completed]) wOrder.id).length
        = ([OrderStatus.picked_up, OrderStatus.completed]).length + 1
    ∧ chainedFrom none
        (historyFor (applyStatusUpdates wDb1 wOrder.id [.picked_up, .completed]) wOrder.id)
        = true :=
  status_transition_sequence sampleDb "clerk_1" sampleInput wOrder wDb1 rfl
    (by decide) (by decide) [.picked_up, .completed] (by decide)

/-- C2 instantiated: the sample express order. -/
theorem create_order_pending_fixed_price_witness :
    ∃ o db1, createOrder sampleDb "clerk_1" sampleInput = (.ok o, db1)
      ∧ o.status = .pending
      ∧ o.price = pricingMap sampleInput.serviceType
      ∧ pricingMap .standard = 25 ∧ pricingMap .express = 40 ∧ pricingMap .premium = 60
      ∧ (∀ n : Nat, ∃ o' db',
          createOrder sampleDb "clerk_1" { sampleInput with itemCount := n } = (.ok o', db')
          ∧ o'.price = o.price)
      ∧ historyFor db1 o.id = [⟨o.id, none, .pending, some sampleUser.id, none⟩] :=
  create_order_pending_fixed_price sampleDb "clerk_1" sampleInput sampleUser rfl rfl
    (by decide)

/-- An order of the sample user already completed. -/
def doneOrder : Order := { wOrder with status := .completed }

/-- An order of the sample user currently picked up. -/
def activeOrder : Order := { wOrder with id := 2, status := .picked_up }

/-- A database holding one terminal and one active order. -/
def cancelDb : Db := ⟨[sampleUser], [doneOrder, activeOrder], [], [], 3⟩

/-- C3 instantiated: cancelling the completed order conflicts and changes
nothing; cancelling the active order succeeds. -/
theorem cancel_order_terminal_conflict_witness :
    cancelOrder cancelDb "clerk_1" 1 = (.error ⟨400, "Order cannot be cancelled"⟩, cancelDb)
    ∧ (cancelOrder cancelDb "clerk_1" 2).1 = .ok { activeOrder with status := .cancelled } :=
  ⟨(cancel_order_terminal_conflict cancelDb "clerk_1" 1 sampleUser doneOrder rfl rfl).1
      (Or.inl rfl),
   ((cancel_order_terminal_conflict cancelDb "clerk_1" 2 sampleUser activeOrder rfl rfl).2
      (by decide) (by decide)).1⟩

/-- A payment already completed for the sample order. -/
def wCompletedPayment : Payment := ⟨0, 1, 0, some "ch_1", some "pi_1", 40, .completed, some "pm_1", none⟩

/-- A database where the sample order is already paid. -/
def payDb : Db := ⟨[sampleUser], [wOrder], [], [wCompletedPayment], 3⟩

/-- A concrete external-services environment. -/
def wEnv : StripeEnv := ⟨none, "cus_1", .error "unreachable"⟩

/-- C4 instantiated: recharging the paid sample order. -/
theorem double_charge_rejected_witness :
    processPayment wEnv payDb "clerk_1" 1 "pm_2"
      = (.error ⟨400, "Order already paid"⟩, payDb, []) :=
  double_charge_rejected_no_external_call wEnv payDb "clerk_1" 1 "pm_2" sampleUser wOrder
    wCompletedPayment rfl rfl (by decide) rfl rfl

/-- A payment still pending for the sample order. -/
def pendingPayment : Payment := ⟨0, 1, 0, some "ch_1", some "pi_1", 40, .pending, some "pm_1", none⟩

/-- A database holding the pending payment. -/
def webhookDb : Db := ⟨[sampleUser], [], [], [pendingPayment], 1⟩

/-- C5 instantiated: redelivery after settling the pending payment. -/
theorem webhook_succeeded_idempotent_witness :
    stripeWebhook (stripeWebhook webhookDb (.ok (.paymentIntentSucceeded "pi_1"))).2
        (.ok (.paymentIntentSucceeded "pi_1"))
      = (.received, (stripeWebhook webhookDb (.ok (.paymentIntentSucceeded "pi_1"))).2)
    ∧ ({ pendingPayment with status := PaymentStatus.completed } : Payment).status = .completed :=
  ⟨(webhook_succeeded_idempotent webhookDb "pi_1" "evt").2.2.1,
   (webhook_succeeded_idempotent webhookDb "pi_1" "evt").2.1
      { pendingPayment with status := PaymentStatus.completed } (by decide) rfl⟩

/-- C7 (amended) instantiated: the refunded payment is rewritten to
completed by the succeeded event. -/
theorem webhook_sets_matching_witness :
    (stripeWebhook cxDb (.ok (.paymentIntentSucceeded "pi_1"))).2.payments.get ⟨0, by decide⟩
      = { cxPayment with status := .completed } :=
  ((webhook_sets_matching_regardless_of_prior_status cxDb "pi_1" none).2.2.1 0
      (by decide) (by decide)).1 rfl

/-- A database holding the sample order, for location updates. -/
def orderDb : Db := ⟨[sampleUser], [wOrder], [⟨1, none, .pending, some 0, none⟩], [], 2⟩

/-- C8 instantiated: zero coordinates accepted, NaN rejected. -/
theorem driver_location_finite_validation_witness :
    (updateDriverLocation orderDb 1 (.num 0) (.num 0) "ts").1
      = .ok { wOrder with driverLocation := some ⟨0, 0, "ts"⟩ }
    ∧ updateDriverLocation orderDb 1 .nan (.num 0) "ts"
      = (.error ⟨400, "Valid latitude and longitude coordinates required"⟩, orderDb) :=
  ⟨((driver_location_finite_validation orderDb 1 "ts").2.2 0 0 wOrder rfl).1,
   (driver_location_finite_validation orderDb 1 "ts").1 .nan (.num 0) rfl⟩

/-- C9 instantiated: add, remove-last, add again on the sample user. -/
theorem saved_addresses_always_list_witness :
    (∃ v, findUserByClerkId
        (applyAddrOps sampleDb "clerk_1"
          [AddrOp.add sampleSaved, AddrOp.remove (some 0), AddrOp.add sampleSaved]) "clerk_1"
        = some v ∧ v.savedAddresses.isSome = true)
    ∧ (addAddress sampleDb "clerk_1" sampleSaved).1
        = .ok { sampleUser with savedAddresses := some [sampleSaved] } :=
  ⟨(saved_addresses_always_list sampleDb "clerk_1" sampleUser rfl).1 rfl
      [AddrOp.add sampleSaved, AddrOp.remove (some 0), AddrOp.add sampleSaved],
   ((saved_addresses_always_list sampleDb "clerk_1" sampleUser rfl).2.1 rfl sampleSaved).1⟩

end HappyLaunderer
